import Mathlib

/-!
Verification of the noise-function composition algebra: the `NoiseFn`
capability contract, its fluent builder methods, the `TransformerArgs`
argument normalization, the arithmetic combinators, the single-slot
memoization cache, and a deep tree model for whole-tree properties
(determinism of cache-free trees, totality of evaluation, and
construction-time configuration validation).

Scalars (`f64` in the source) are embedded as `ℚ`: an exact, computable
carrier on which the structural laws under scrutiny (argument expansion,
delegation, sugar equalities, commutativity, involution, memoization
counting) have the same shape as on IEEE doubles.  The floating-point
power intrinsic is modelled by `powf` below.
-/

namespace NoiseRs

/-- Points are fixed-length coordinate tuples, `[T; DIM]` in the source with
the scalar type instantiated at the `ℚ` carrier. -/
abbrev Point (n : ℕ) : Type := Fin n → ℚ

/-- Modelled from the spec: the standard floating-point power `left^right`
used by the `Power` combinator (the combiner module is not among the staged
sources).  On the exact carrier it is integer-exponent power when the
exponent is an integer (where IEEE `powf` is exact on representable
operands), and `0` otherwise, standing in for the NaN the spec allows to
propagate. -/
def powf (a b : ℚ) : ℚ := if b.den = 1 then a ^ b.num else 0

/-! ## Argument normalization (`TransformerArgs`, §4.2)

The trait and all five impls are in the staged source
`src/noise_fns/transformers.rs`. -/

/-- The `TransformerArgs` trait: `expand(self, default) -> [f64; 4]`. -/
class TransformerArgs (α : Type) where
  expand : α → ℚ → (Fin 4 → ℚ)

/-- Impl for `f64`: `[self; 4]`, an args list where all args are this value. -/
instance : TransformerArgs ℚ where
  expand s _default := fun _ => s

/-- Impl for `[f64; 1]`: `[self[0], default, default, default]`. -/
instance : TransformerArgs (Fin 1 → ℚ) where
  expand a dflt := ![a 0, dflt, dflt, dflt]

/-- Impl for `[f64; 2]`: `[self[0], self[1], default, default]`. -/
instance : TransformerArgs (Fin 2 → ℚ) where
  expand a dflt := ![a 0, a 1, dflt, dflt]

/-- Impl for `[f64; 3]`: `[self[0], self[1], self[2], default]`. -/
instance : TransformerArgs (Fin 3 → ℚ) where
  expand a dflt := ![a 0, a 1, a 2, dflt]

/-- Impl for `[f64; 4]`: `self`, unchanged. -/
instance : TransformerArgs (Fin 4 → ℚ) where
  expand a _default := a

/-! ## The `NoiseFn` capability contract (§4.1)

The trait is in the staged source `src/noise_fns.rs`; its builder methods
are embedded below next to the node types they build. -/

/-- The `NoiseFn<T, DIM>` trait with `T` at the scalar carrier:
`get(&self, point) -> f64`. -/
class NoiseFn (M : Type) (n : ℕ) where
  get : M → Point n → ℚ

/-! ## Leaf and combinator node types

The combiner and generator modules are not among the staged sources; the
node types and their `get` impls are modelled from the spec, while each
builder method is embedded from the staged `src/noise_fns.rs`. -/

/-- Modelled from the spec: the zero-argument constant leaf built by
`Constant::new(value)`, whose `get` returns the stored value at every
point (generators are out-of-scope leaves; `Constant` appears in the
staged builders). -/
structure Constant where
  value : ℚ

/-- The `Constant::new` constructor. -/
def Constant.new (value : ℚ) : Constant := ⟨value⟩

instance {n : ℕ} : NoiseFn Constant n where
  get c _ := c.value

/-- Modelled from the spec: the binary `Add` combinator owning two child
nodes (§4.4). -/
structure Add (A B : Type) where
  source1 : A
  source2 : B

/-- The `Add::new` constructor. -/
def Add.new {A B : Type} (a : A) (b : B) : Add A B := ⟨a, b⟩

/-- Modelled from the spec (§4.4): `get` evaluates both children at the
same point and returns their sum. -/
instance {A B : Type} {n : ℕ} [NoiseFn A n] [NoiseFn B n] : NoiseFn (Add A B) n where
  get s p := NoiseFn.get s.source1 p + NoiseFn.get s.source2 p

/-- Modelled from the spec: the binary `Multiply` combinator (§4.4). -/
structure Multiply (A B : Type) where
  source1 : A
  source2 : B

/-- The `Multiply::new` constructor. -/
def Multiply.new {A B : Type} (a : A) (b : B) : Multiply A B := ⟨a, b⟩

/-- Modelled from the spec (§4.4): the product of the children's outputs. -/
instance {A B : Type} {n : ℕ} [NoiseFn A n] [NoiseFn B n] : NoiseFn (Multiply A B) n where
  get s p := NoiseFn.get s.source1 p * NoiseFn.get s.source2 p

/-- Modelled from the spec: the binary `Max` combinator (§4.4). -/
structure Max (A B : Type) where
  source1 : A
  source2 : B

/-- The `Max::new` constructor. -/
def Max.new {A B : Type} (a : A) (b : B) : Max A B := ⟨a, b⟩

/-- Modelled from the spec (§4.4): the maximum of the children's outputs. -/
instance {A B : Type} {n : ℕ} [NoiseFn A n] [NoiseFn B n] : NoiseFn (Max A B) n where
  get s p := max (NoiseFn.get s.source1 p) (NoiseFn.get s.source2 p)

/-- Modelled from the spec: the binary `Min` combinator (§4.4). -/
structure Min (A B : Type) where
  source1 : A
  source2 : B

/-- The `Min::new` constructor. -/
def Min.new {A B : Type} (a : A) (b : B) : Min A B := ⟨a, b⟩

/-- Modelled from the spec (§4.4): the minimum of the children's outputs. -/
instance {A B : Type} {n : ℕ} [NoiseFn A n] [NoiseFn B n] : NoiseFn (Min A B) n where
  get s p := min (NoiseFn.get s.source1 p) (NoiseFn.get s.source2 p)

/-- Modelled from the spec: the binary `Power` combinator (§4.4). -/
structure Power (A B : Type) where
  source1 : A
  source2 : B

/-- The `Power::new` constructor. -/
def Power.new {A B : Type} (a : A) (b : B) : Power A B := ⟨a, b⟩

/-- Modelled from the spec (§4.4): `left^right` via the floating-point
power stand-in `powf`. -/
instance {A B : Type} {n : ℕ} [NoiseFn A n] [NoiseFn B n] : NoiseFn (Power A B) n where
  get s p := powf (NoiseFn.get s.source1 p) (NoiseFn.get s.source2 p)

/-- Modelled from the spec: the unary `Negate` modifier (§4.5). -/
structure Negate (M : Type) where
  source : M

/-- The `Negate::new` constructor. -/
def Negate.new {M : Type} (m : M) : Negate M := ⟨m⟩

/-- Modelled from the spec (§4.5): `-child.get(point)`. -/
instance {M : Type} {n : ℕ} [NoiseFn M n] : NoiseFn (Negate M) n where
  get s p := -(NoiseFn.get s.source p)

/-! ## Reference and boxed delegation (staged source, lines 296–314) -/

/-- The shared reference `&'a M` behind which a node can be evaluated. -/
structure Ref (M : Type) where
  val : M

/-- Impl of `NoiseFn` for `&'a M`: `M::get(*self, point)`. -/
instance {M : Type} {n : ℕ} [NoiseFn M n] : NoiseFn (Ref M) n where
  get r p := NoiseFn.get r.val p

/-- The owning indirection `Box<M>` behind which a node can be stored. -/
structure Box (M : Type) where
  val : M

/-- Impl of `NoiseFn` for `Box<M>`: `M::get(self, point)`. -/
instance {M : Type} {n : ℕ} [NoiseFn M n] : NoiseFn (Box M) n where
  get r p := NoiseFn.get r.val p

/-! ## Builder methods of the `NoiseFn` trait (staged source) -/

/-- Builder `NoiseFn::add`: `Add::new(self, other)`. -/
def NoiseFn.add {M O : Type} (m : M) (other : O) : Add M O :=
  Add.new m other

/-- Builder `NoiseFn::add_constant`: `Add::new(self, Constant::new(value))`. -/
def NoiseFn.add_constant {M : Type} (m : M) (value : ℚ) : Add M Constant :=
  Add.new m (Constant.new value)

/-- Builder `NoiseFn::multiply`: `Multiply::new(self, other)`. -/
def NoiseFn.multiply {M O : Type} (m : M) (other : O) : Multiply M O :=
  Multiply.new m other

/-- Builder `NoiseFn::multiply_constant`: `Multiply::new(self, Constant::new(value))`. -/
def NoiseFn.multiply_constant {M : Type} (m : M) (value : ℚ) : Multiply M Constant :=
  Multiply.new m (Constant.new value)

/-- Builder `NoiseFn::max`: `Max::new(self, other)`. -/
def NoiseFn.max {M O : Type} (m : M) (other : O) : Max M O :=
  Max.new m other

/-- Builder `NoiseFn::max_constant`: `Max::new(self, Constant::new(value))`. -/
def NoiseFn.max_constant {M : Type} (m : M) (value : ℚ) : Max M Constant :=
  Max.new m (Constant.new value)

/-- Builder `NoiseFn::min`: `Min::new(self, other)`. -/
def NoiseFn.min {M O : Type} (m : M) (other : O) : Min M O :=
  Min.new m other

/-- Builder `NoiseFn::min_constant`: `Min::new(self, Constant::new(value))`. -/
def NoiseFn.min_constant {M : Type} (m : M) (value : ℚ) : Min M Constant :=
  Min.new m (Constant.new value)

/-- Builder `NoiseFn::power`: `Power::new(self, other)`. -/
def NoiseFn.power {M O : Type} (m : M) (other : O) : Power M O :=
  Power.new m other

/-- Builder `NoiseFn::power_constant`: `Power::new(self, Constant::new(value))`. -/
def NoiseFn.power_constant {M : Type} (m : M) (value : ℚ) : Power M Constant :=
  Power.new m (Constant.new value)

/-- Builder `NoiseFn::negate`: `Negate::new(self)`. -/
def NoiseFn.negate {M : Type} (m : M) : Negate M :=
  Negate.new m

/-! ## Transformer node types (§4.7)

The transformer modules themselves are not among the staged sources; the
node types with their configuration setters are modelled from the spec
(unconfigured axes default to the identity: 0 offset, 1 scale, 0 angle),
while the `_by` builder methods are embedded from the staged
`src/noise_fns.rs`. -/

/-- Modelled from the spec: `RotatePoint` stores the rotation angle for
each of the four axes; `new` leaves every angle at the identity 0. -/
structure RotatePoint (M : Type) where
  source : M
  angles : Fin 4 → ℚ

/-- The `RotatePoint::new` constructor: all angles 0. -/
def RotatePoint.new {M : Type} (m : M) : RotatePoint M := ⟨m, fun _ => 0⟩

/-- Modelled from the spec: `set_angles` stores the four per-axis angles. -/
def RotatePoint.set_angles {M : Type} (r : RotatePoint M) (x y z u : ℚ) : RotatePoint M :=
  { r with angles := ![x, y, z, u] }

/-- Modelled from the spec: `ScalePoint` stores the multiplicative scale
for each of the four axes; `new` leaves every scale at the identity 1. -/
structure ScalePoint (M : Type) where
  source : M
  scales : Fin 4 → ℚ

/-- The `ScalePoint::new` constructor: all scales 1. -/
def ScalePoint.new {M : Type} (m : M) : ScalePoint M := ⟨m, fun _ => 1⟩

/-- Modelled from the spec: `set_all_scales` stores the four per-axis scales. -/
def ScalePoint.set_all_scales {M : Type} (r : ScalePoint M) (x y z u : ℚ) : ScalePoint M :=
  { r with scales := ![x, y, z, u] }

/-- Modelled from the spec: `TranslatePoint` stores the additive offset
for each of the four axes; `new` leaves every offset at the identity 0. -/
structure TranslatePoint (M : Type) where
  source : M
  translations : Fin 4 → ℚ

/-- The `TranslatePoint::new` constructor: all offsets 0. -/
def TranslatePoint.new {M : Type} (m : M) : TranslatePoint M := ⟨m, fun _ => 0⟩

/-- Modelled from the spec: `set_all_translations` stores the four
per-axis offsets. -/
def TranslatePoint.set_all_translations {M : Type} (r : TranslatePoint M) (x y z u : ℚ) :
    TranslatePoint M :=
  { r with translations := ![x, y, z, u] }

/-- Builder `NoiseFn::rotate_point_by`:
`let [x, y, z, u] = args.expand(0.0); RotatePoint::new(self).set_angles(x, y, z, u)`. -/
def NoiseFn.rotate_point_by {M α : Type} [TransformerArgs α] (m : M) (args : α) :
    RotatePoint M :=
  let a := TransformerArgs.expand args 0
  (RotatePoint.new m).set_angles (a 0) (a 1) (a 2) (a 3)

/-- Builder `NoiseFn::scale_point_by`:
`let [x, y, z, u] = args.expand(1.0); ScalePoint::new(self).set_all_scales(x, y, z, u)`. -/
def NoiseFn.scale_point_by {M α : Type} [TransformerArgs α] (m : M) (args : α) :
    ScalePoint M :=
  let a := TransformerArgs.expand args 1
  (ScalePoint.new m).set_all_scales (a 0) (a 1) (a 2) (a 3)

/-- Builder `NoiseFn::translate_point_by`:
`let [x, y, z, u] = args.expand(0.0); TranslatePoint::new(self).set_all_translations(x, y, z, u)`. -/
def NoiseFn.translate_point_by {M α : Type} [TransformerArgs α] (m : M) (args : α) :
    TranslatePoint M :=
  let a := TransformerArgs.expand args 0
  (TranslatePoint.new m).set_all_translations (a 0) (a 1) (a 2) (a 3)

/-! ## The memoization cache (§4.3)

The cache module is not among the staged sources; its `get` is modelled
from the spec, with the memo slot passed and returned explicitly and the
number of child invocations made by the call reported alongside. -/

/-- Modelled from the spec (§4.3, cache module absent from the staged
sources): `Cache::get(point)` over an explicit memo slot.  If the slot
holds the same point as the argument (exact equality), the memoized value
is returned without invoking the child; otherwise the child is invoked,
`(point, value)` is stored in the slot, and the value returned.  The
result carries the returned value, the updated slot, and how many times
the child was invoked during this call. -/
def cache_get {P : Type} [DecidableEq P] (child : P → ℚ) (slot : Option (P × ℚ)) (p : P) :
    ℚ × Option (P × ℚ) × ℕ :=
  match slot with
  | some (q, v) =>
    if q = p then (v, some (q, v), 0)
    else
      let v2 := child p
      (v2, some (p, v2), 1)
  | none =>
    let v2 := child p
    (v2, some (p, v2), 1)

/-! ## A deep model of whole expression trees

Whole-tree properties (determinism of cache-free trees, totality of
evaluation) quantify over every composite node of §4.4–§4.7 at once, so
the node kinds are collected into one inductive tree type.  The per-node
semantics below are those of the shallow instances above where staged, and
modelled from the spec where the module is absent. -/

/-- Modelled from the spec (§4.5): clamping a value into `[lower, upper]`. -/
def clampQ (lower upper v : ℚ) : ℚ :=
  if v < lower then lower else if upper < v then upper else v

/-- Strict ascending order of a list of control-point inputs (§3: control
points must be strictly sorted by input; duplicates are a configuration
error). -/
def ascendingB : List ℚ → Bool
  | [] => true
  | [_] => true
  | a :: b :: t => (decide (a < b)) && ascendingB (b :: t)

/-- Modelled from the spec (§4.5): the cubic blend used between the two
control points bracketing the child's output, driven by the four
surrounding control-point outputs. -/
def cubicInterp (k0 k1 k2 k3 a : ℚ) : ℚ :=
  k1 + a * ((k2 - k0) / 2
    + a * ((2 * k0 - 5 * k1 + 4 * k2 - k3) / 2
      + a * ((3 * (k1 - k2) + k3 - k0) / 2)))

/-- Modelled from the spec (§4.5, Curve): remap a value through an
ascending-sorted control-point sequence by cubic interpolation between the
two bracketing points; beyond the first/last point the indices clamp to
the end segment (clamped-cubic extrapolation rather than failure). -/
def curveRemap (pts : List (ℚ × ℚ)) (v : ℚ) : ℚ :=
  let ip : ℕ := (pts.filter fun q => decide (q.1 < v)).length
  let pick : ℤ → ℚ × ℚ := fun k => pts.getD (min k.toNat (pts.length - 1)) (0, 0)
  let q0 := pick ((ip : ℤ) - 2)
  let q1 := pick ((ip : ℤ) - 1)
  let q2 := pick (ip : ℤ)
  let q3 := pick ((ip : ℤ) + 1)
  if q1.1 = q2.1 then q1.2
  else cubicInterp q0.2 q1.2 q2.2 q3.2 ((v - q1.1) / (q2.1 - q1.1))

/-- Modelled from the spec (§4.5, Terrace): remap a value into flat steps
between the two bracketing control points, optionally inverted, using a
quadratic easing toward the upper point. -/
def terraceRemap (pts : List ℚ) (inverted : Bool) (v : ℚ) : ℚ :=
  let ip : ℕ := (pts.filter fun q => decide (q < v)).length
  let pick : ℤ → ℚ := fun k => pts.getD (min k.toNat (pts.length - 1)) 0
  let lo := pick ((ip : ℤ) - 1)
  let hi := pick (ip : ℤ)
  if lo = hi then lo
  else
    let a := (v - lo) / (hi - lo)
    let a := if inverted then 1 - a else a
    lo + a * a * (hi - lo)

/-- Modelled from the spec (§4.6, Blend): the control output, clamped into
the working range after being mapped from `[-1, 1]` to `[0, 1]`, is the
linear interpolation factor between the two children's outputs. -/
def blendValue (va vb vc : ℚ) : ℚ :=
  let t := clampQ 0 1 ((vc + 1) / 2)
  va + t * (vb - va)

/-- Modelled from the spec (§4.6, Select): below the window the first
child's value, above it the second child's value, inside it an
interpolation that applies a smoothstep easing when a positive falloff is
configured. -/
def selectValue (lower upper falloff va vb vc : ℚ) : ℚ :=
  if vc < lower then va
  else if upper < vc then vb
  else
    let t := (vc - lower) / (upper - lower)
    let t := if 0 < falloff then t * t * (3 - 2 * t) else t
    va + t * (vb - va)

/-- The deep tree of composite nodes (§4.4–§4.7) over leaf evaluators,
with the Cache wrapper carrying its memo slot.  Transformer nodes store
their per-axis configuration as produced at construction (`rotatePoint`
stores the affine matrix precomputed from the angles); `displace` owns one
child per axis together with a flag recording whether that axis was
configured (the flags model the type-level no-displacement marker). -/
inductive Node (n : ℕ) : Type
  | leaf (f : Point n → ℚ)
  | constant (value : ℚ)
  | add (source1 source2 : Node n)
  | multiply (source1 source2 : Node n)
  | maxOf (source1 source2 : Node n)
  | minOf (source1 source2 : Node n)
  | power (source1 source2 : Node n)
  | absOf (source : Node n)
  | negate (source : Node n)
  | clamp (lower upper : ℚ) (source : Node n)
  | exponent (e : ℚ) (source : Node n)
  | scaleBias (scale bias : ℚ) (source : Node n)
  | curve (points : List (ℚ × ℚ)) (source : Node n)
  | terrace (points : List ℚ) (inverted : Bool) (source : Node n)
  | blend (source1 source2 control : Node n)
  | select (lower upper falloff : ℚ) (source1 source2 control : Node n)
  | translatePoint (offsets : Fin n → ℚ) (source : Node n)
  | scalePoint (scales : Fin n → ℚ) (source : Node n)
  | rotatePoint (matrix : Fin n → Fin n → ℚ) (source : Node n)
  | displace (source dx dy dz du : Node n) (cx cy cz cu : Bool)
  | cache (slot : Option (Point n × ℚ)) (source : Node n)

/-- Evaluation of a deep tree at a point, threading the (possibly updated)
tree through so that the Cache memo-slot mutation of §4.3 is explicit:
the result is the evaluated value together with the tree after the call.
Every node except `cache` is returned unchanged. -/
def evalS {n : ℕ} : Node n → Point n → ℚ × Node n
  | .leaf f, p => (f p, .leaf f)
  | .constant v, _ => (v, .constant v)
  | .add a b, p =>
    let ra := evalS a p
    let rb := evalS b p
    (ra.1 + rb.1, .add ra.2 rb.2)
  | .multiply a b, p =>
    let ra := evalS a p
    let rb := evalS b p
    (ra.1 * rb.1, .multiply ra.2 rb.2)
  | .maxOf a b, p =>
    let ra := evalS a p
    let rb := evalS b p
    (max ra.1 rb.1, .maxOf ra.2 rb.2)
  | .minOf a b, p =>
    let ra := evalS a p
    let rb := evalS b p
    (min ra.1 rb.1, .minOf ra.2 rb.2)
  | .power a b, p =>
    let ra := evalS a p
    let rb := evalS b p
    (powf ra.1 rb.1, .power ra.2 rb.2)
  | .absOf a, p =>
    let r := evalS a p
    (|r.1|, .absOf r.2)
  | .negate a, p =>
    let r := evalS a p
    (-r.1, .negate r.2)
  | .clamp lo hi a, p =>
    let r := evalS a p
    (clampQ lo hi r.1, .clamp lo hi r.2)
  | .exponent e a, p =>
    let r := evalS a p
    (if r.1 < 0 then -(powf (-r.1) e) else powf r.1 e, .exponent e r.2)
  | .scaleBias sc bi a, p =>
    let r := evalS a p
    (r.1 * sc + bi, .scaleBias sc bi r.2)
  | .curve pts a, p =>
    let r := evalS a p
    (curveRemap pts r.1, .curve pts r.2)
  | .terrace pts inv a, p =>
    let r := evalS a p
    (terraceRemap pts inv r.1, .terrace pts inv r.2)
  | .blend a b c, p =>
    let ra := evalS a p
    let rb := evalS b p
    let rc := evalS c p
    (blendValue ra.1 rb.1 rc.1, .blend ra.2 rb.2 rc.2)
  | .select lo hi fo a b c, p =>
    let ra := evalS a p
    let rb := evalS b p
    let rc := evalS c p
    (selectValue lo hi fo ra.1 rb.1 rc.1, .select lo hi fo ra.2 rb.2 rc.2)
  | .translatePoint t a, p =>
    let r := evalS a (fun i => p i + t i)
    (r.1, .translatePoint t r.2)
  | .scalePoint s a, p =>
    let r := evalS a (fun i => p i * s i)
    (r.1, .scalePoint s r.2)
  | .rotatePoint m a, p =>
    let r := evalS a (fun i => ∑ j, m i j * p j)
    (r.1, .rotatePoint m r.2)
  | .displace s dx dy dz du cx cy cz cu, p =>
    let rx := if cx then evalS dx p else (0, dx)
    let ry := if cy then evalS dy p else (0, dy)
    let rz := if cz then evalS dz p else (0, dz)
    let ru := if cu then evalS du p else (0, du)
    let d : ℕ → ℚ := fun k =>
      match k with
      | 0 => rx.1
      | 1 => ry.1
      | 2 => rz.1
      | 3 => ru.1
      | _ => 0
    let r := evalS s (fun i => p i + d i.val)
    (r.1, .displace r.2 rx.2 ry.2 rz.2 ru.2 cx cy cz cu)
  | .cache slot a, p =>
    match slot with
    | some (q, v) =>
      if q = p then (v, .cache (some (q, v)) a)
      else
        let r := evalS a p
        (r.1, .cache (some (p, r.1)) r.2)
    | none =>
      let r := evalS a p
      (r.1, .cache (some (p, r.1)) r.2)

/-- A tree in which the Cache wrapper does not occur anywhere. -/
def cacheFree {n : ℕ} : Node n → Bool
  | .leaf _ => true
  | .constant _ => true
  | .add a b => cacheFree a && cacheFree b
  | .multiply a b => cacheFree a && cacheFree b
  | .maxOf a b => cacheFree a && cacheFree b
  | .minOf a b => cacheFree a && cacheFree b
  | .power a b => cacheFree a && cacheFree b
  | .absOf a => cacheFree a
  | .negate a => cacheFree a
  | .clamp _ _ a => cacheFree a
  | .exponent _ a => cacheFree a
  | .scaleBias _ _ a => cacheFree a
  | .curve _ a => cacheFree a
  | .terrace _ _ a => cacheFree a
  | .blend a b c => cacheFree a && cacheFree b && cacheFree c
  | .select _ _ _ a b c => cacheFree a && cacheFree b && cacheFree c
  | .translatePoint _ a => cacheFree a
  | .scalePoint _ a => cacheFree a
  | .rotatePoint _ a => cacheFree a
  | .displace s dx dy dz du _ _ _ _ =>
    cacheFree s && cacheFree dx && cacheFree dy && cacheFree dz && cacheFree du
  | .cache _ _ => false

/-- Modelled from the spec (§7): the configuration-error class surfaced at
construction time. -/
inductive ConfigError : Type
  | badBounds
  | tooFewControlPoints
  | nonAscendingControlPoints

/-- Modelled from the spec (§4.5, §7): the `clamp_by` configuration path;
inverted bounds are rejected at construction, before any evaluation. -/
def Node.clamp_by {n : ℕ} (a : Node n) (lower upper : ℚ) : Except ConfigError (Node n) :=
  if lower ≤ upper then .ok (.clamp lower upper a) else .error .badBounds

/-- Modelled from the spec (§4.5, §7): configuring a Curve with its
control points; fewer than 4 points or a non-ascending input sequence is
rejected at construction, before any evaluation. -/
def Node.curve_with {n : ℕ} (a : Node n) (pts : List (ℚ × ℚ)) : Except ConfigError (Node n) :=
  if pts.length < 4 then .error .tooFewControlPoints
  else if ascendingB (pts.map Prod.fst) then .ok (.curve pts a)
  else .error .nonAscendingControlPoints

/-- Modelled from the spec (§4.5, §7): configuring a Terrace with its
control points; fewer than 2 points (no step to interpolate in) or a
non-ascending sequence is rejected at construction. -/
def Node.terrace_with {n : ℕ} (a : Node n) (pts : List ℚ) (inverted : Bool) :
    Except ConfigError (Node n) :=
  if pts.length < 2 then .error .tooFewControlPoints
  else if ascendingB pts then .ok (.terrace pts inverted a)
  else .error .nonAscendingControlPoints

/-- Modelled from the spec (§4.6, §7): configuring the Select window
edges; an inverted window is rejected at construction. -/
def Node.select_with_bounds {n : ℕ} (a b c : Node n) (lower upper falloff : ℚ) :
    Except ConfigError (Node n) :=
  if lower ≤ upper then .ok (.select lower upper falloff a b c) else .error .badBounds

/-! ## Theorems -/

/-- Repacking the four components of a 4-slot argument array yields the
array itself. -/
theorem vec4_eta (a : Fin 4 → ℚ) : ![a 0, a 1, a 2, a 3] = a := by
  funext i
  fin_cases i <;> simp

/-- C1: for every input shape, `TransformerArgs::expand(default)` returns
exactly the 4-element array of the table in §4.2: a scalar `s` yields
`[s, s, s, s]`; `[a]` yields `[a, default, default, default]`; `[a, b]`
yields `[a, b, default, default]`; `[a, b, c]` yields
`[a, b, c, default]`; `[a, b, c, d]` yields `[a, b, c, d]` — for all
element values and all defaults. -/
theorem expand_table (s a b c d dflt : ℚ) :
    TransformerArgs.expand s dflt = ![s, s, s, s]
  ∧ TransformerArgs.expand ![a] dflt = ![a, dflt, dflt, dflt]
  ∧ TransformerArgs.expand ![a, b] dflt = ![a, b, dflt, dflt]
  ∧ TransformerArgs.expand ![a, b, c] dflt = ![a, b, c, dflt]
  ∧ TransformerArgs.expand ![a, b, c, d] dflt = ![a, b, c, d] := by
  refine ⟨?_, ?_, ?_, ?_, rfl⟩ <;>
    · funext i
      fin_cases i <;> simp [TransformerArgs.expand]

/-- C10: `expand` ignores the supplied default for the scalar and the full
4-element shapes: a scalar expands the same under any two defaults, and a
4-element array expands to itself under any two defaults. -/
theorem expand_default_independent (s d1 d2 : ℚ) (a : Fin 4 → ℚ) :
    TransformerArgs.expand s d1 = TransformerArgs.expand s d2
  ∧ TransformerArgs.expand a d1 = TransformerArgs.expand a d2
  ∧ TransformerArgs.expand a d1 = a :=
  ⟨rfl, rfl, rfl⟩

/-- C2: each transformer builder expands its arguments with that
transformer's identity as the default — `scale_point_by` with 1,
`translate_point_by` and `rotate_point_by` with 0 — for every node and
every argument shape, and those defaults match the identity configuration
the bare constructors install. -/
theorem transformer_builder_defaults :
    (∀ (M α : Type) [TransformerArgs α] (m : M) (args : α),
        (NoiseFn.scale_point_by m args).scales = TransformerArgs.expand args 1
      ∧ (NoiseFn.translate_point_by m args).translations = TransformerArgs.expand args 0
      ∧ (NoiseFn.rotate_point_by m args).angles = TransformerArgs.expand args 0)
  ∧ (∀ (M : Type) (m : M) (i : Fin 4),
        (ScalePoint.new m).scales i = 1
      ∧ (TranslatePoint.new m).translations i = 0
      ∧ (RotatePoint.new m).angles i = 0) := by
  refine ⟨fun M α _ m args => ?_, fun M m i => ⟨rfl, rfl, rfl⟩⟩
  refine ⟨?_, ?_, ?_⟩ <;>
    simp [NoiseFn.scale_point_by, NoiseFn.translate_point_by, NoiseFn.rotate_point_by,
      ScalePoint.set_all_scales, TranslatePoint.set_all_translations,
      RotatePoint.set_angles, ScalePoint.new, TranslatePoint.new, RotatePoint.new,
      vec4_eta]

/-- C3: evaluating a node through a shared reference and through the
owning boxed indirection both delegate to the underlying node: the three
evaluations agree at every point. -/
theorem ref_box_delegate :
    ∀ (M : Type) (nd : ℕ) [NoiseFn M nd] (m : M) (p : Point nd),
      NoiseFn.get (Ref.mk m) p = NoiseFn.get m p
    ∧ NoiseFn.get (Box.mk m) p = NoiseFn.get m p :=
  fun _ _ _ _ _ => ⟨rfl, rfl⟩

/-- C4: each `_constant` convenience builder is pure sugar for the
corresponding two-node combinator applied to `Constant::new(value)`: the
two trees evaluate identically at every point. -/
theorem constant_sugar :
    ∀ (M : Type) (nd : ℕ) [NoiseFn M nd] (f : M) (v : ℚ) (p : Point nd),
      NoiseFn.get (NoiseFn.add_constant f v) p = NoiseFn.get (NoiseFn.add f (Constant.new v)) p
    ∧ NoiseFn.get (NoiseFn.multiply_constant f v) p
        = NoiseFn.get (NoiseFn.multiply f (Constant.new v)) p
    ∧ NoiseFn.get (NoiseFn.max_constant f v) p = NoiseFn.get (NoiseFn.max f (Constant.new v)) p
    ∧ NoiseFn.get (NoiseFn.min_constant f v) p = NoiseFn.get (NoiseFn.min f (Constant.new v)) p
    ∧ NoiseFn.get (NoiseFn.power_constant f v) p
        = NoiseFn.get (NoiseFn.power f (Constant.new v)) p :=
  fun _ _ _ _ _ _ => ⟨rfl, rfl, rfl, rfl, rfl⟩

/-- C8: the binary combinators Add, Multiply, Max and Min are commutative
in their children at every point (exactly, on the carrier), while Power is
not commutative: two constant children exhibiting the asymmetry are
produced. -/
theorem combinator_commutativity :
    (∀ (M O : Type) (nd : ℕ) [NoiseFn M nd] [NoiseFn O nd] (f : M) (g : O) (p : Point nd),
        NoiseFn.get (Add.new f g) p = NoiseFn.get (Add.new g f) p)
  ∧ (∀ (M O : Type) (nd : ℕ) [NoiseFn M nd] [NoiseFn O nd] (f : M) (g : O) (p : Point nd),
        NoiseFn.get (Multiply.new f g) p = NoiseFn.get (Multiply.new g f) p)
  ∧ (∀ (M O : Type) (nd : ℕ) [NoiseFn M nd] [NoiseFn O nd] (f : M) (g : O) (p : Point nd),
        NoiseFn.get (Max.new f g) p = NoiseFn.get (Max.new g f) p)
  ∧ (∀ (M O : Type) (nd : ℕ) [NoiseFn M nd] [NoiseFn O nd] (f : M) (g : O) (p : Point nd),
        NoiseFn.get (Min.new f g) p = NoiseFn.get (Min.new g f) p)
  ∧ (∃ (f g : Constant) (p : Point 2),
        NoiseFn.get (Power.new f g) p ≠ NoiseFn.get (Power.new g f) p) := by
  refine ⟨fun M O nd _ _ f g p => add_comm _ _,
          fun M O nd _ _ f g p => mul_comm _ _,
          fun M O nd _ _ f g p => max_comm _ _,
          fun M O nd _ _ f g p => min_comm _ _,
          ⟨Constant.new 2, Constant.new 3, fun _ => 0, ?_⟩⟩
  show powf 2 3 ≠ powf 3 2
  norm_num [powf]

/-- C9: Negate is involutive — `Negate(Negate(f))` evaluates to `f`'s
value at every point, where `Negate(f)` evaluates to the negation of
`f`'s value. -/
theorem negate_involutive :
    ∀ (M : Type) (nd : ℕ) [NoiseFn M nd] (f : M) (p : Point nd),
      NoiseFn.get (Negate.new (Negate.new f)) p = NoiseFn.get f p
    ∧ NoiseFn.get (Negate.new f) p = -(NoiseFn.get f p) :=
  fun _ _ _ _ _ => ⟨neg_neg _, rfl⟩

/-- Whether a configuration attempt succeeded. -/
def isOkE {ε α : Type} : Except ε α → Bool
  | .ok _ => true
  | .error _ => false

/-- C5: a Cache invokes its child exactly once over two successive calls
at the identical point (the second call returns the memoized value without
invoking the child), invokes it on each of two calls at distinct points,
and the first call after construction always misses the empty memo slot. -/
theorem cache_single_invocation {P : Type} [DecidableEq P] (child : P → ℚ)
    (p p1 p2 : P) (h : p1 ≠ p2) :
    (cache_get child none p).2.2 = 1
  ∧ (cache_get child (cache_get child none p).2.1 p).2.2 = 0
  ∧ (cache_get child (cache_get child none p).2.1 p).1 = (cache_get child none p).1
  ∧ (cache_get child none p1).2.2 = 1
  ∧ (cache_get child (cache_get child none p1).2.1 p2).2.2 = 1 := by
  refine ⟨rfl, ?_, ?_, rfl, ?_⟩ <;> simp [cache_get, h]

/-- Spot check of `cache_single_invocation` at a concrete child and
concrete distinct points. -/
theorem cache_single_invocation_spot :
    (cache_get (fun _ : ℤ × ℤ => (0 : ℚ)) none ((0, 0) : ℤ × ℤ)).2.2 = 1
  ∧ (cache_get (fun _ : ℤ × ℤ => (0 : ℚ))
      (cache_get (fun _ : ℤ × ℤ => (0 : ℚ)) none ((0, 0) : ℤ × ℤ)).2.1 ((0, 0) : ℤ × ℤ)).2.2 = 0
  ∧ (cache_get (fun _ : ℤ × ℤ => (0 : ℚ))
      (cache_get (fun _ : ℤ × ℤ => (0 : ℚ)) none ((0, 0) : ℤ × ℤ)).2.1 ((0, 0) : ℤ × ℤ)).1
      = (cache_get (fun _ : ℤ × ℤ => (0 : ℚ)) none ((0, 0) : ℤ × ℤ)).1
  ∧ (cache_get (fun _ : ℤ × ℤ => (0 : ℚ)) none ((0, 0) : ℤ × ℤ)).2.2 = 1
  ∧ (cache_get (fun _ : ℤ × ℤ => (0 : ℚ))
      (cache_get (fun _ : ℤ × ℤ => (0 : ℚ)) none ((0, 0) : ℤ × ℤ)).2.1 ((1, 1) : ℤ × ℤ)).2.2 = 1 :=
  cache_single_invocation (fun _ => 0) (0, 0) (0, 0) (1, 1) (by decide)

/-- Evaluation of a cache-free tree leaves the tree unchanged: no memo
slot exists to mutate. -/
theorem evalS_state_eq {n : ℕ} :
    ∀ t : Node n, cacheFree t = true → ∀ p : Point n, (evalS t p).2 = t := by
  intro t
  induction t with
  | leaf f => intro _ p; rfl
  | constant v => intro _ p; rfl
  | add a b iha ihb =>
    intro h p
    simp only [cacheFree, Bool.and_eq_true] at h
    simp [evalS, iha h.1, ihb h.2]
  | multiply a b iha ihb =>
    intro h p
    simp only [cacheFree, Bool.and_eq_true] at h
    simp [evalS, iha h.1, ihb h.2]
  | maxOf a b iha ihb =>
    intro h p
    simp only [cacheFree, Bool.and_eq_true] at h
    simp [evalS, iha h.1, ihb h.2]
  | minOf a b iha ihb =>
    intro h p
    simp only [cacheFree, Bool.and_eq_true] at h
    simp [evalS, iha h.1, ihb h.2]
  | power a b iha ihb =>
    intro h p
    simp only [cacheFree, Bool.and_eq_true] at h
    simp [evalS, iha h.1, ihb h.2]
  | absOf a iha =>
    intro h p
    simp only [cacheFree] at h
    simp [evalS, iha h]
  | negate a iha =>
    intro h p
    simp only [cacheFree] at h
    simp [evalS, iha h]
  | clamp lo hi a iha =>
    intro h p
    simp only [cacheFree] at h
    simp [evalS, iha h]
  | exponent e a iha =>
    intro h p
    simp only [cacheFree] at h
    simp [evalS, iha h]
  | scaleBias sc bi a iha =>
    intro h p
    simp only [cacheFree] at h
    simp [evalS, iha h]
  | curve pts a iha =>
    intro h p
    simp only [cacheFree] at h
    simp [evalS, iha h]
  | terrace pts inv a iha =>
    intro h p
    simp only [cacheFree] at h
    simp [evalS, iha h]
  | blend a b c iha ihb ihc =>
    intro h p
    simp only [cacheFree, Bool.and_eq_true] at h
    simp [evalS, iha h.1.1, ihb h.1.2, ihc h.2]
  | select lo hi fo a b c iha ihb ihc =>
    intro h p
    simp only [cacheFree, Bool.and_eq_true] at h
    simp [evalS, iha h.1.1, ihb h.1.2, ihc h.2]
  | translatePoint t a iha =>
    intro h p
    simp only [cacheFree] at h
    simp [evalS, iha h]
  | scalePoint s a iha =>
    intro h p
    simp only [cacheFree] at h
    simp [evalS, iha h]
  | rotatePoint m a iha =>
    intro h p
    simp only [cacheFree] at h
    simp [evalS, iha h]
  | displace s dx dy dz du cx cy cz cu ihs ihx ihy ihz ihu =>
    intro h p
    simp only [cacheFree, Bool.and_eq_true] at h
    obtain ⟨⟨⟨⟨hs, hx⟩, hy⟩, hz⟩, hu⟩ := h
    have ex : (if cx then evalS dx p else ((0 : ℚ), dx)).2 = dx := by
      cases cx
      · rfl
      · exact ihx hx p
    have ey : (if cy then evalS dy p else ((0 : ℚ), dy)).2 = dy := by
      cases cy
      · rfl
      · exact ihy hy p
    have ez : (if cz then evalS dz p else ((0 : ℚ), dz)).2 = dz := by
      cases cz
      · rfl
      · exact ihz hz p
    have eu : (if cu then evalS du p else ((0 : ℚ), du)).2 = du := by
      cases cu
      · rfl
      · exact ihu hu p
    simp [evalS, ihs hs, ex, ey, ez, eu]
  | cache slot a iha =>
    intro h p
    simp [cacheFree] at h

/-- C6: for every tree from which Cache is excluded and every point, two
successive evaluations at the same point return identical results. -/
theorem cache_free_deterministic {n : ℕ} (t : Node n) (p : Point n)
    (h : cacheFree t = true) :
    (evalS (evalS t p).2 p).1 = (evalS t p).1 := by
  rw [evalS_state_eq t h p]

/-- Spot check of `cache_free_deterministic` on a concrete cache-free
tree. -/
theorem cache_free_deterministic_spot :
    (evalS (evalS (Node.add (.constant 1) (.negate (.constant 2)) : Node 2) (fun _ => 0)).2
        (fun _ => 0)).1
      = (evalS (Node.add (.constant 1) (.negate (.constant 2)) : Node 2) (fun _ => 0)).1 :=
  cache_free_deterministic _ _ rfl

/-- C7: evaluation of every composite tree at every point returns a
well-defined scalar (it is a total function into the carrier), while the
configuration checks — inverted clamp bounds, too few control points,
non-ascending control points, inverted select window — are performed by
the construction-time builders, which succeed exactly when the
configuration is valid. -/
theorem eval_total_validation_at_construction :
    (∀ (n : ℕ) (t : Node n) (p : Point n), ∃ v : ℚ, (evalS t p).1 = v)
  ∧ (∀ (n : ℕ) (a : Node n) (lo hi : ℚ), isOkE (Node.clamp_by a lo hi) = true ↔ lo ≤ hi)
  ∧ (∀ (n : ℕ) (a : Node n) (pts : List (ℚ × ℚ)),
      isOkE (Node.curve_with a pts) = true
        ↔ 4 ≤ pts.length ∧ ascendingB (pts.map Prod.fst) = true)
  ∧ (∀ (n : ℕ) (a : Node n) (pts : List ℚ) (inv : Bool),
      isOkE (Node.terrace_with a pts inv) = true ↔ 2 ≤ pts.length ∧ ascendingB pts = true)
  ∧ (∀ (n : ℕ) (a b c : Node n) (lo hi fo : ℚ),
      isOkE (Node.select_with_bounds a b c lo hi fo) = true ↔ lo ≤ hi) := by
  refine ⟨fun n t p => ⟨(evalS t p).1, rfl⟩, fun n a lo hi => ?_, fun n a pts => ?_,
    fun n a pts inv => ?_, fun n a b c lo hi fo => ?_⟩
  · unfold Node.clamp_by
    split_ifs with h1
    · exact iff_of_true rfl h1
    · exact iff_of_false (by simp [isOkE]) h1
  · unfold Node.curve_with
    split_ifs with h1 h2
    · exact iff_of_false (by simp [isOkE]) (fun hc => absurd hc.1 (by omega))
    · exact iff_of_true rfl ⟨by omega, h2⟩
    · exact iff_of_false (by simp [isOkE]) (fun hc => h2 hc.2)
  · unfold Node.terrace_with
    split_ifs with h1 h2
    · exact iff_of_false (by simp [isOkE]) (fun hc => absurd hc.1 (by omega))
    · exact iff_of_true rfl ⟨by omega, h2⟩
    · exact iff_of_false (by simp [isOkE]) (fun hc => h2 hc.2)
  · unfold Node.select_with_bounds
    split_ifs with h1
    · exact iff_of_true rfl h1
    · exact iff_of_false (by simp [isOkE]) h1

end NoiseRs
